import Mathlib

/-!
Shallow embedding of `cosmpy/clients/ledger.py` (class `CosmosLedger`,
class `Retrier` and module-level helpers), together with proofs of the
claims about that code.

Modelling conventions:
* Python strings are modelled as `String` (for JSON payloads) or
  `List Char` (for the address regular-expression machinery, where the
  character-level structure matters).
* Python exceptions are modelled with `Except` / explicit outcome
  inductives; `raise X from cause` is an error value carrying the cause.
* Network calls are modelled as oracles `Nat → CallResult …` giving the
  outcome of the i-th call (1-indexed), so loops become explicit
  recursions on the remaining attempt budget.
* `time.sleep` is modelled by counting sleeps.
-/

namespace Cosmpy

/-! ## JSON trees (the shape of `json.loads(raw_log)`) -/

/-- JSON-like values: what `json.loads` can produce from a raw log. -/
inductive Json where
  | str : String → Json
  | num : Int → Json
  | bool : Bool → Json
  | null : Json
  | arr : List Json → Json
  | obj : List (String × Json) → Json
deriving Repr

/-- Whether `pat` occurs as a contiguous substring of `s` (character lists).
Used to embed Python's `re.match(".*pat.*", s)`, which holds iff `pat`
occurs somewhere in `s`. -/
def hasSubstr (pat : List Char) : List Char → Bool
  | [] => pat.isEmpty
  | c :: rest => pat.isPrefixOf (c :: rest) || hasSubstr pat rest

/-- Embeds `re.match(".*code_id.*", v)` / `re.match(".*contract_address.*", v)`:
`.` does not match a newline (no `re.DOTALL`), and `match` anchors at the
start only, so a compiled `.*marker.*` pattern (for a newline-free
`marker`) matches exactly the strings whose first line contains `marker`. -/
def markerMatch (marker : String) (s : String) : Bool :=
  hasSubstr marker.toList (s.toList.takeWhile (fun c => c ≠ '\n'))

/-! ### `CosmosLedger._find_item` -/

/-- The test `isinstance(v, str) and re_pattern.match(v)`. -/
def strMatches (p : String → Bool) : Json → Bool
  | .str s => p s
  | _ => false

mutual

/-- Embedding of the static method `CosmosLedger._find_item(obj, re_pattern)`.
`p` is the (decidable) predicate of the compiled pattern on strings.
Lists: recurse into each item in order, return the first non-`None` result.
Dicts: for each entry in order, if the value is a string matching `p`
return the whole dict, else recurse into the value; scalars give `None`. -/
def find_item (p : String → Bool) : Json → Option Json
  | .arr items => find_item_list p items
  | .obj fields => find_item_fields p (.obj fields) fields
  | _ => none

/-- The `isinstance(obj, List)` branch of `_find_item`. -/
def find_item_list (p : String → Bool) : List Json → Option Json
  | [] => none
  | x :: xs =>
    match find_item p x with
    | some r => some r
    | none => find_item_list p xs

/-- The `isinstance(obj, dict)` branch of `_find_item`: `whole` is the
dict being iterated (returned when one of its own values matches). -/
def find_item_fields (p : String → Bool) (whole : Json) :
    List (String × Json) → Option Json
  | [] => none
  | (_, v) :: rest =>
    if strMatches p v then some whole
    else
      match find_item p v with
      | some r => some r
      | none => find_item_fields p whole rest

end

mutual

/-- Some dict in the tree has a direct string value satisfying `p`
(the only situation in which `_find_item` can return a non-`None` result). -/
def jsonHasMatch (p : String → Bool) : Json → Bool
  | .arr items => jsonHasMatchList p items
  | .obj fields => jsonHasMatchFields p fields
  | _ => false

/-- Version of `jsonHasMatch` over the items of a list. -/
def jsonHasMatchList (p : String → Bool) : List Json → Bool
  | [] => false
  | x :: xs => jsonHasMatch p x || jsonHasMatchList p xs

/-- Version of `jsonHasMatch` over the entries of a dict. -/
def jsonHasMatchFields (p : String → Bool) : List (String × Json) → Bool
  | [] => false
  | (_, v) :: rest =>
    strMatches p v || jsonHasMatch p v || jsonHasMatchFields p rest

end

/-! ## The `Retrier` class -/

/-- Outcome of one invocation of the wrapped callable: either it raises
an exception `e`, or it returns a value (`none` models Python `None`). -/
inductive CallResult (E V : Type) where
  | raise : E → CallResult E V
  | ret : Option V → CallResult E V

/-- Trace of `Retrier.call_with_retry`'s `while` loop: the final values
of the local variables `response`, `last_exception`, plus the number of
`time.sleep` calls performed and of invocations of `call`. -/
structure RetryTrace (E V : Type) where
  response : Option V
  last_exception : Option E
  sleeps : Nat
  calls : Nat
deriving Repr

/-- The `while attempt < self.n_retries` loop of `Retrier.call_with_retry`:
each iteration increments `attempt`, invokes `call`; a non-`None` return
breaks; a `None` return just overwrites `response`; an exception records
it in `last_exception`, sleeps `retry_interval`, and continues.
`remaining` is the attempt budget still available (`n_retries - attempt`,
the number of further iterations the guard `attempt < n_retries` allows),
so the recursion is structural. -/
def runRetry (call : Nat → CallResult E V) :
    (remaining : Nat) → (attempt : Nat) → (response : Option V) →
    (last_exception : Option E) → (sleeps : Nat) → RetryTrace E V
  | 0, attempt, response, last_exception, sleeps =>
    ⟨response, last_exception, sleeps, attempt⟩
  | remaining + 1, attempt, _response, last_exception, sleeps =>
    match call (attempt + 1) with
    | .ret v =>
      if v.isSome then ⟨v, last_exception, sleeps, attempt + 1⟩
      else runRetry call remaining (attempt + 1) v last_exception sleeps
    | .raise e =>
      runRetry call remaining (attempt + 1) _response (some e) (sleeps + 1)

/-- Result of `Retrier.call_with_retry`: either the non-`None` response,
or the raised `self.exception_type(...) from last_exception` (the error
carries the cause, i.e. the final `last_exception`); `sleeps` and `calls`
as in `RetryTrace`. -/
structure RetryResult (E V : Type) where
  result : Except (Option E) V
  sleeps : Nat
  calls : Nat
deriving Repr

/-- Embedding of `Retrier.call_with_retry`: run the loop from
`attempt = 0` with `response = last_exception = None`; afterwards a
`None` response raises `exception_type` with the last exception as cause,
otherwise the response is returned. -/
def call_with_retry (call : Nat → CallResult E V) (n_retries : Nat) :
    RetryResult E V :=
  let t := runRetry call n_retries 0 none none 0
  -- (budget `n_retries`, starting at `attempt = 0`)
  match t.response with
  | none => ⟨.error t.last_exception, t.sleeps, t.calls⟩
  | some v => ⟨.ok v, t.sleeps, t.calls⟩

/-! ## `CosmosLedger.is_valid_crypto_address`

The source compiles `"^" + prefix + "[0-9a-z]{39}$"` and calls
`addr_re.match(address)`.  We embed the regex engine's behaviour on this
pattern directly: consume the prefix, consume exactly 39 characters of
the class `[0-9a-z]`, then match `$`.  Python's `$` (without
`re.MULTILINE`) matches at the end of the string *and* just before a
newline that ends the string.  Addresses are character lists. -/

/-- The character class `[0-9a-z]`. -/
def addrBodyChar (c : Char) : Bool :=
  (decide ('0' ≤ c) && decide (c ≤ '9')) || (decide ('a' ≤ c) && decide (c ≤ 'z'))

/-- The character class `[a-z]` (the default `prefix` regex's class). -/
def lowerAlpha (c : Char) : Bool :=
  decide ('a' ≤ c) && decide (c ≤ 'z')

/-- Consume a literal from the front of the input; `some rest` on success. -/
def consumeLit : List Char → List Char → Option (List Char)
  | [], s => some s
  | _ :: _, [] => none
  | c :: l, d :: s => if c = d then consumeLit l s else none

/-- Consume exactly `k` characters of class `cls`; `some rest` on success. -/
def consumeClass (cls : Char → Bool) : Nat → List Char → Option (List Char)
  | 0, s => some s
  | _ + 1, [] => none
  | k + 1, c :: s => if cls c then consumeClass cls k s else none

/-- Python's `$` without `re.MULTILINE`: matches at the end of the string,
or immediately before a newline that is the last character. -/
def pyDollar : List Char → Bool
  | [] => true
  | [c] => c = '\n'
  | _ :: _ :: _ => false

/-- Embedding of the static method
`CosmosLedger.is_valid_crypto_address(address, prefix)` for a *literal*
(metacharacter-free) prefix `pre`: `bool(re.match("^" + pre + "[0-9a-z]{39}$", address))`. -/
def is_valid_crypto_address (address : List Char) (pre : List Char) : Bool :=
  match consumeLit pre address with
  | none => false
  | some r1 =>
    match consumeClass addrBodyChar 39 r1 with
    | none => false
    | some r2 => pyDollar r2

/-- Embedding of `is_valid_crypto_address(address)` at its *default*
prefix argument, the regex `"[a-z]+"`: the full pattern is
`^[a-z]+[0-9a-z]{39}$`, and `bool(match)` holds iff some split of the
input realises it, which the backtracking engine finds exactly when one
exists. -/
def is_valid_crypto_address_default : List Char → Bool
  | [] => false
  | c :: s =>
    lowerAlpha c &&
      ((match consumeClass addrBodyChar 39 s with
        | none => false
        | some r2 => pyDollar r2)
       || is_valid_crypto_address_default s)

/-! ## Log-value extraction: `get_contract_address`, `get_code_id` -/

/-- Python `str()` on a JSON value, as applied to `res_dict["value"]`.
Scalars follow Python's `str`; containers follow Python's `repr`
rendering of parsed JSON (string escaping inside containers is not
modelled — no claim depends on it). -/
def pyStr : Json → String
  | .str s => s
  | .num n => toString n
  | .bool b => if b then "True" else "False"
  | .null => "None"
  | .arr items => "[" ++ String.intercalate ", " (pyStrList items) ++ "]"
  | .obj fields => "\x7b" ++ String.intercalate ", " (pyStrFields fields) ++ "\x7d"
where
  /-- Python repr of the items of a list. -/
  pyStrList : List Json → List String
    | [] => []
    | x :: xs => pyStrInner x :: pyStrList xs
  /-- Python repr of the entries of a dict. -/
  pyStrFields : List (String × Json) → List String
    | [] => []
    | (k, v) :: rest => (squote k ++ ": " ++ pyStrInner v) :: pyStrFields rest
  /-- Python repr of a nested value (strings get quotes). -/
  pyStrInner : Json → String
    | .str s => squote s
    | .num n => toString n
    | .bool b => if b then "True" else "False"
    | .null => "None"
    | .arr items => "[" ++ String.intercalate ", " (pyStrList items) ++ "]"
    | .obj fields => "\x7b" ++ String.intercalate ", " (pyStrFields fields) ++ "\x7d"
  /-- Single-quoted rendering of a string. -/
  squote (s : String) : String := "\x27" ++ s ++ "\x27"

/-- Python dict indexing `d[k]` on a parsed-JSON object: the value at key
`k` (keys of a parsed JSON object are unique), `none` models `KeyError`. -/
def dictGet (k : String) : Json → Option Json
  | .obj fields => dictGetFields k fields
  | _ => none
where
  /-- lookup in the entry list. -/
  dictGetFields (k : String) : List (String × Json) → Option Json
    | [] => none
    | (k', v) :: rest => if k' = k then some v else dictGetFields k rest

/-- Python exceptions that can escape the extraction helpers. -/
inductive PyExn where
  | jsonDecodeError
  | assertionError
  | keyError
  | valueError
deriving Repr, DecidableEq

/-- A `GetTxResponse` as far as the extraction code reads it:
`response.tx_response.raw_log` is the raw string, and `parsed` is the
outcome of `json.loads(raw_log)` on it (`none` = `json.decoder.JSONDecodeError`). -/
structure TxLog where
  raw_log : String
  parsed : Option Json
deriving Repr

/-- Embedding of the static method `CosmosLedger.get_contract_address(response)`:
`json.loads(raw_log)`, `_find_item(raw_log, CONTRACT_ADDRESS_RE)`,
`assert res_dict is not None`, `assert is_valid_crypto_address(str(res_dict["value"]))`
(default prefix), then return `str(res_dict["value"])`. -/
def get_contract_address (response : TxLog) : Except PyExn String :=
  match response.parsed with
  | none => .error .jsonDecodeError
  | some raw_log =>
    match find_item (markerMatch "contract_address") raw_log with
    | none => .error .assertionError
    | some res_dict =>
      match dictGet "value" res_dict with
      | none => .error .keyError
      | some v =>
        if is_valid_crypto_address_default (pyStr v).toList then .ok (pyStr v)
        else .error .assertionError

/-- Python `int(s)` on the string rendering of a JSON scalar, modelled
for the values that occur in logs: an integer literal string (optionally
signed) parses, anything else is a `ValueError`; a JSON number converts
directly. -/
def pyInt : Json → Except PyExn Int
  | .num n => .ok n
  | .str s => match s.toInt? with | some n => .ok n | none => .error .valueError
  | _ => .error .valueError

/-- Embedding of the static method `CosmosLedger.get_code_id(response)`:
`json.loads(raw_log)`, `_find_item(raw_log, CODE_ID_RE)`,
`assert res_dict is not None`, then `int(res_dict["value"])`. -/
def get_code_id (response : TxLog) : Except PyExn Int :=
  match response.parsed with
  | none => .error .jsonDecodeError
  | some raw_log =>
    match find_item (markerMatch "code_id") raw_log with
    | none => .error .assertionError
    | some res_dict =>
      match dictGet "value" res_dict with
      | none => .error .keyError
      | some v => pyInt v

/-! ## `broadcast_tx` and `get_tx` -/

/-- The part of a `tx_response` protobuf message read by the client:
`code` (0 = `CLIENT_CODE_MESSAGE_SUCCESSFUL`), `raw_log`, `txhash`. -/
structure TxResponse where
  code : Nat
  raw_log : String
  txhash : String
deriving Repr, DecidableEq

/-- The node's synchronous `BroadcastTx` acknowledgment. -/
structure BroadcastTxResponse where
  tx_response : TxResponse
deriving Repr, DecidableEq

/-- A confirmed `GetTx` record (only the fields the client reads). -/
structure GetTxResponse where
  tx_response : TxResponse
deriving Repr, DecidableEq

/-- Errors raised out of `broadcast_tx`: the broadcast `Retrier`
exhausting its budget, the rejection `BroadcastException(f"Transaction
cannot be broadcast: {raw_log}")`, or the `get_tx` `Retrier` exhausting
its budget — each carrying what the `raise` carries. -/
inductive BroadcastErr (E : Type) where
  | broadcastCallFailed : Option E → BroadcastErr E
  | rejected : String → BroadcastErr E
  | getTxFailed : Option E → BroadcastErr E
deriving Repr

/-- Embedding of `CosmosLedger.get_tx(txhash)`: a `Retrier` with budget
`n_get_response_retries` around `tx_client.GetTx(hash=txhash)`; the
oracle takes the hash queried and the (1-indexed) attempt number. -/
def get_tx (getTxCall : String → Nat → CallResult E GetTxResponse)
    (n_get_response_retries : Nat) (txhash : String) :
    RetryResult E GetTxResponse :=
  call_with_retry (getTxCall txhash) n_get_response_retries

/-- Embedding of `CosmosLedger.broadcast_tx(tx, retries)`:
a `Retrier` (budget `retries`) around the synchronous `BroadcastTx`;
then, if the acknowledgment's `tx_response.code` is non-zero, raise
`BroadcastException` carrying the raw log; otherwise poll
`get_tx(txhash=ack.tx_response.txhash)`.  The returned `Bool` records
whether the confirmation-polling phase (`get_tx`) was entered. -/
def broadcast_tx (broadcastCall : Nat → CallResult E BroadcastTxResponse)
    (getTxCall : String → Nat → CallResult E GetTxResponse)
    (retries n_get_response_retries : Nat) :
    Except (BroadcastErr E) GetTxResponse × Bool :=
  match (call_with_retry broadcastCall retries).result with
  | .error cause => (.error (.broadcastCallFailed cause), false)
  | .ok ack =>
    if ack.tx_response.code ≠ 0 then
      (.error (.rejected ack.tx_response.raw_log), false)
    else
      match (get_tx getTxCall n_get_response_retries ack.tx_response.txhash).result with
      | .error cause => (.error (.getTxFailed cause), true)
      | .ok res => (.ok res, true)

/-! ## `execute_contract` -/

/-- Outcome of `execute_contract`'s `while` loop: final `res`,
`last_exception` and sleep count (sleeps of `msg_failed_retry_interval`). -/
structure ExecTrace (E : Type) where
  res : Option GetTxResponse
  last_exception : Option E
  sleeps : Nat
deriving Repr

/-- The `while attempt < n_retries` loop of `CosmosLedger.execute_contract`:
each attempt builds/signs/broadcasts (outcome given by the oracle
`att`); a returned response breaks out; a `BroadcastException` is
recorded, `msg_failed_retry_interval` is slept, and the loop continues. -/
def execute_loop (att : Nat → CallResult E GetTxResponse) :
    (remaining : Nat) → (attempt : Nat) → (res : Option GetTxResponse) →
    (last_exception : Option E) → (sleeps : Nat) → ExecTrace E
  | 0, _attempt, res, last_exception, sleeps => ⟨res, last_exception, sleeps⟩
  | remaining + 1, attempt, res, last_exception, sleeps =>
    match att (attempt + 1) with
    | .ret r =>
      if r.isSome then ⟨r, last_exception, sleeps⟩
      else execute_loop att remaining (attempt + 1) r last_exception sleeps
    | .raise e =>
      execute_loop att remaining (attempt + 1) res (some e) (sleeps + 1)

/-- Embedding of `CosmosLedger.execute_contract`: run the attempt loop;
if no response was obtained raise `BroadcastException … from
last_exception`, else return `(MessageToDict(res), res.tx_response.code)`
— `MessageToDict` is modelled as the identity on the response record. -/
def execute_contract (att : Nat → CallResult E GetTxResponse)
    (n_retries : Nat) : Except (Option E) (GetTxResponse × Nat) :=
  let t := execute_loop att n_retries 0 none none 0
  match t.res with
  | none => .error t.last_exception
  | some res => .ok (res, res.tx_response.code)

/-! ## `instantiate_contract` and `deploy_contract` -/

/-- Outcome of one attempt of the instantiate/deploy workflow body up to
and including `broadcast_tx`: either a `BroadcastException` (from
`generate_tx`/`sign_tx`/`broadcast_tx`), or a confirmed response whose
raw log and parse outcome are in the `TxLog`. -/
inductive WorkflowAttempt (B : Type) where
  | broadcastExn : B → WorkflowAttempt B
  | response : TxLog → WorkflowAttempt B
deriving Repr

/-- Exceptions recorded in `last_exception` by `instantiate_contract`'s
`except` clauses. -/
inductive InstCaught (B : Type) where
  | broadcastExn : B → InstCaught B
  | jsonDecodeError : InstCaught B
deriving Repr

/-- How a call of `instantiate_contract` ends. -/
inductive InstOutcome (B : Type) where
  /-- normal return `(contract_address, MessageToDict(res))`. -/
  | success : String → TxLog → InstOutcome B
  /-- the final `raise BroadcastException(f"Failed to init contract after
  multiple attempts: {last_exception} {error_msg}")`. -/
  | exhausted : Option (InstCaught B) → String → InstOutcome B
  /-- an exception no `except` clause catches (e.g. `AssertionError` from
  `get_contract_address`) propagates out of the loop. -/
  | fatal : PyExn → InstOutcome B
deriving Repr

/-- Result of `instantiate_contract` together with the number of attempts
started and of `msg_failed_retry_interval` sleeps. -/
structure InstResult (B : Type) where
  outcome : InstOutcome B
  attempts : Nat
  sleeps : Nat
deriving Repr

/-- The `error_msg` of the final raise: `res.tx_response.raw_log` when
`res` is set, else `""` (the `if res:` guard). -/
def instErrorMsg : Option TxLog → String
  | none => ""
  | some r => r.raw_log

/-- The `while contract_address is None and attempt < n_total_msg_retries`
loop of `CosmosLedger.instantiate_contract`.  Per attempt:
a `BroadcastException` is caught (`res` keeps its previous value); on a
response, `get_contract_address` runs — a `JSONDecodeError` is caught
(`res` now holds the new response), an `AssertionError`/`KeyError`
propagates uncaught; after a caught failure the loop sleeps
`msg_failed_retry_interval` (the `if contract_address is None` block)
and retries; success returns without sleeping. -/
def instantiate_loop (att : Nat → WorkflowAttempt B) :
    (remaining : Nat) → (attempt : Nat) → (res : Option TxLog) →
    (last_exception : Option (InstCaught B)) → (sleeps : Nat) → InstResult B
  | 0, attempt, res, last_exception, sleeps =>
    ⟨.exhausted last_exception (instErrorMsg res), attempt, sleeps⟩
  | remaining + 1, attempt, res, _last_exception, sleeps =>
    match att (attempt + 1) with
    | .broadcastExn e =>
      instantiate_loop att remaining (attempt + 1) res
        (some (.broadcastExn e)) (sleeps + 1)
    | .response r =>
      match get_contract_address r with
      | .ok addr => ⟨.success addr r, attempt + 1, sleeps⟩
      | .error .jsonDecodeError =>
        instantiate_loop att remaining (attempt + 1) (some r)
          (some .jsonDecodeError) (sleeps + 1)
      | .error e => ⟨.fatal e, attempt + 1, sleeps⟩

/-- Embedding of `CosmosLedger.instantiate_contract`: the loop from
`attempt = 0`, `res = None`, `last_exception = None`. -/
def instantiate_contract (att : Nat → WorkflowAttempt B)
    (n_total_msg_retries : Nat) : InstResult B :=
  instantiate_loop att n_total_msg_retries 0 none none 0

/-- How a call of `deploy_contract` ends. -/
inductive DeployOutcome (B : Type) where
  /-- normal return `(code_id, MessageToDict(res))`. -/
  | success : Int → TxLog → DeployOutcome B
  /-- the final `raise BroadcastException(f"Failed to deploy contract code
  after multiple attempts: {last_exception}")`. -/
  | exhausted : Option B → DeployOutcome B
  /-- an exception no `except` clause catches (`json.decoder.JSONDecodeError`,
  `AssertionError`, …) propagates out of the loop. -/
  | fatal : PyExn → DeployOutcome B
deriving Repr

/-- Result of `deploy_contract` with attempt and sleep counts. -/
structure DeployResult (B : Type) where
  outcome : DeployOutcome B
  attempts : Nat
  sleeps : Nat
deriving Repr

/-- The `while code_id is None and attempt < n_total_msg_retries` loop of
`CosmosLedger.deploy_contract`.  Only `BroadcastException` is caught
(followed by a `msg_failed_retry_interval` sleep); any exception from
`get_code_id` — including the parse error and the `assert` — propagates. -/
def deploy_loop (att : Nat → WorkflowAttempt B) :
    (remaining : Nat) → (attempt : Nat) → (last_exception : Option B) →
    (sleeps : Nat) → DeployResult B
  | 0, attempt, last_exception, sleeps => ⟨.exhausted last_exception, attempt, sleeps⟩
  | remaining + 1, attempt, _last_exception, sleeps =>
    match att (attempt + 1) with
    | .broadcastExn e =>
      deploy_loop att remaining (attempt + 1) (some e) (sleeps + 1)
    | .response r =>
      match get_code_id r with
      | .ok code_id => ⟨.success code_id r, attempt + 1, sleeps⟩
      | .error e => ⟨.fatal e, attempt + 1, sleeps⟩

/-- Embedding of `CosmosLedger.deploy_contract`. -/
def deploy_contract (att : Nat → WorkflowAttempt B)
    (n_total_msg_retries : Nat) : DeployResult B :=
  deploy_loop att n_total_msg_retries 0 none 0

/-! ## `refill_wealth_from_faucet` (per-address loop) -/

/-- What one iteration of the per-address refill loop observes:
either `get_balances` (or the faucet HTTP call) raises — caught by the
generic `except Exception` — or the balance of the first available coin
is read as `b` (`balances[0].amount`, or `0` when the list is empty). -/
inductive RefillEvent where
  | raiseExn : RefillEvent
  | balanceIs : Nat → RefillEvent
deriving Repr, DecidableEq

/-- How the per-address refill loop ends. -/
inductive RefillOutcome where
  /-- the `break`: the observed balance reached `min_amount_required`. -/
  | reached : Nat → RefillOutcome
  /-- The case where `attempt` reached `n_total_msg_retries` without the balance
  reaching the threshold; the loop falls through silently. -/
  | gaveUp : RefillOutcome
deriving Repr, DecidableEq

/-- Result of the loop with iteration and `faucet_retry_interval`-sleep counts. -/
structure RefillResult where
  outcome : RefillOutcome
  attempts : Nat
  sleeps : Nat
deriving Repr, DecidableEq

/-- The `while attempt < self.n_total_msg_retries` loop run per address by
`CosmosLedger.refill_wealth_from_faucet`: each iteration increments
`attempt` and reads the balance; below `min_amount_required` it posts a
faucet claim, sleeps `faucet_retry_interval` and continues; at or above
the threshold it breaks; an exception sleeps `faucet_retry_interval` and
continues. -/
def refill_loop (ev : Nat → RefillEvent) (min_amount_required : Nat) :
    (remaining : Nat) → (attempt : Nat) → (sleeps : Nat) → RefillResult
  | 0, attempt, sleeps => ⟨.gaveUp, attempt, sleeps⟩
  | remaining + 1, attempt, sleeps =>
    match ev (attempt + 1) with
    | .raiseExn => refill_loop ev min_amount_required remaining (attempt + 1) (sleeps + 1)
    | .balanceIs b =>
      if b < min_amount_required then
        refill_loop ev min_amount_required remaining (attempt + 1) (sleeps + 1)
      else ⟨.reached b, attempt + 1, sleeps⟩

/-- The per-address body of `refill_wealth_from_faucet` (the loop from
`attempt = 0`). -/
def refill_wealth_from_faucet_addr (ev : Nat → RefillEvent)
    (min_amount_required n_total_msg_retries : Nat) : RefillResult :=
  refill_loop ev min_amount_required n_total_msg_retries 0 0

/-! ## `generate_tx` and `_get_signer_info` -/

/-- Protobuf `BaseAccount` (the fields the client reads). -/
structure BaseAccount where
  account_number : Nat
  sequence : Nat
deriving Repr, DecidableEq

/-- Protobuf `SignMode` values used by the client. -/
inductive SignMode where
  | direct
deriving Repr, DecidableEq

/-- Protobuf `ModeInfo(single=ModeInfo.Single(mode=…))`. -/
structure ModeInfo where
  single_mode : SignMode
deriving Repr, DecidableEq

/-- A packed `ProtoAny` public key: `ProtoAny.Pack(ProtoPubKey(key=pub_key))`
is injective in `pub_key`, so we keep the key bytes (as a `List Nat`). -/
structure PackedPubKey where
  key : List Nat
deriving Repr, DecidableEq

/-- Protobuf `SignerInfo`. -/
structure SignerInfo where
  public_key : PackedPubKey
  mode_info : ModeInfo
  sequence : Nat
deriving Repr, DecidableEq

/-- Protobuf `Coin`. -/
structure Coin where
  denom : String
  amount : Nat
deriving Repr, DecidableEq

/-- Protobuf `Fee(amount=fee, gas_limit=gas_limit)`. -/
structure Fee where
  amount : List Coin
  gas_limit : Nat
deriving Repr, DecidableEq

/-- Protobuf `AuthInfo(signer_infos=…, fee=…)`. -/
structure AuthInfo where
  signer_infos : List SignerInfo
  fee : Fee
deriving Repr, DecidableEq

/-- Protobuf `TxBody` — packed messages are opaque payloads `M`. -/
structure TxBody (M : Type) where
  memo : String
  messages : List M

/-- Protobuf `Tx(body=…, auth_info=…)`. -/
structure Tx (M : Type) where
  body : TxBody M
  auth_info : AuthInfo

/-- Embedding of the static method
`CosmosLedger._get_signer_info(from_acc, pub_key)`: packed public key,
`ModeInfo(single=Single(mode=SIGN_MODE_DIRECT))`, and
`sequence=from_acc.sequence`. -/
def _get_signer_info (from_acc : BaseAccount) (pub_key : List Nat) : SignerInfo :=
  { public_key := ⟨pub_key⟩
    mode_info := ⟨.direct⟩
    sequence := from_acc.sequence }

/-- Embedding of `CosmosLedger.generate_tx`.  `query_account_data` is the
fresh per-address account query performed during this build (in the
source it is a network call; here it is the oracle `query`): for each
`(from_address, pub_key)` pair of `zip(from_addresses, pub_keys)` the
account is queried and a `SignerInfo` built from it; then
`AuthInfo(signer_infos, Fee(fee, gas_limit))`, and a `TxBody` holding
`memo` and exactly `packed_msgs`. -/
def generate_tx (query : String → BaseAccount) (packed_msgs : List M)
    (from_addresses : List String) (pub_keys : List (List Nat))
    (fee : List Coin) (memo : String) (gas_limit : Nat) : Tx M :=
  let signer_infos :=
    (from_addresses.zip pub_keys).map fun ap => _get_signer_info (query ap.1) ap.2
  { body := { memo := memo, messages := packed_msgs }
    auth_info := { signer_infos := signer_infos, fee := ⟨fee, gas_limit⟩ } }

/-! ## `sign_tx` and `_ensure_accont_number` -/

/-- The mutable fields of `CosmosCrypto` that `sign_tx` touches. -/
structure CryptoState where
  account_number : Option Nat
deriving Repr, DecidableEq

/-- Embedding of `CosmosLedger._ensure_accont_number(crypto)`:
when `crypto.account_number is None`, `query_account_data` runs (outcome
given by `queryResult`; `.error` covers both the `BroadcastException`
and the `TypeError` it can raise) and its `account_number` is stored. -/
def _ensure_accont_number (queryResult : Except Q BaseAccount)
    (crypto : CryptoState) : Except Q CryptoState :=
  match crypto.account_number with
  | some _ => .ok crypto
  | none =>
    match queryResult with
    | .error e => .error e
    | .ok account => .ok { crypto with account_number := some account.account_number }

/-- How `sign_tx` can fail. -/
inductive SignErr (Q : Type) where
  /-- an exception propagating out of `_ensure_accont_number`'s query. -/
  | queryFailed : Q → SignErr Q
  /-- the explicit `raise RuntimeError("Getting account number failed")`. -/
  | runtimeAccountNumberMissing : SignErr Q
deriving Repr

/-- Embedding of `CosmosLedger.sign_tx(crypto, tx)`:
`_ensure_accont_number(crypto)`, then the `crypto.account_number is None`
check raising `RuntimeError`, then `sign_transaction(…, crypto.account_number)`
(modelled by returning the account number that signing uses, together
with the updated crypto state). -/
def sign_tx (queryResult : Except Q BaseAccount) (crypto : CryptoState) :
    Except (SignErr Q) (CryptoState × Nat) :=
  match _ensure_accont_number queryResult crypto with
  | .error e => .error (.queryFailed e)
  | .ok crypto' =>
    match crypto'.account_number with
    | none => .error .runtimeAccountNumberMissing
    | some n => .ok (crypto', n)

/-! # Theorems -/

/-! ## C1: `Retrier.call_with_retry` -/

/-- One loop iteration whose call raises: record the exception, sleep,
continue. -/
theorem runRetry_step_raise (call : Nat → CallResult E V) (rem attempt : Nat)
    (resp : Option V) (le : Option E) (sleeps : Nat) (e : E)
    (h : call (attempt + 1) = .raise e) :
    runRetry call (rem + 1) attempt resp le sleeps =
      runRetry call rem (attempt + 1) resp (some e) (sleeps + 1) := by
  simp only [runRetry, h]

/-- One loop iteration whose call returns a non-`None` value: break. -/
theorem runRetry_step_ret_some (call : Nat → CallResult E V) (rem attempt : Nat)
    (resp : Option V) (le : Option E) (sleeps : Nat) (v : V)
    (h : call (attempt + 1) = .ret (some v)) :
    runRetry call (rem + 1) attempt resp le sleeps =
      ⟨some v, le, sleeps, attempt + 1⟩ := by
  simp only [runRetry, h, Option.isSome_some, if_true]

/-- If every call strictly between `attempt` and `attempt + rem` raises and
the call at `attempt + rem` returns a non-`None` value, the loop ends with
that value after `rem - 1` further sleeps and ends at attempt `attempt + rem`. -/
theorem runRetry_raise_then_ret (call : Nat → CallResult E V) (err : Nat → E) (v : V) :
    ∀ (rem attempt : Nat) (resp : Option V) (le : Option E) (sleeps : Nat),
      (∀ i, attempt < i → i < attempt + rem → call i = .raise (err i)) →
      call (attempt + rem) = .ret (some v) → 1 ≤ rem →
      runRetry call rem attempt resp le sleeps =
        ⟨some v, (runRetry call rem attempt resp le sleeps).last_exception,
          sleeps + (rem - 1), attempt + rem⟩ := by
  intro rem
  induction rem with
  | zero => intro attempt resp le sleeps _ _ h1; omega
  | succ r ih =>
    intro attempt resp le sleeps hraise hret _
    cases hr : r with
    | zero =>
      subst hr
      rw [runRetry_step_ret_some call 0 attempt resp le sleeps v hret]
      simp
    | succ r' =>
      subst hr
      have hcall : call (attempt + 1) = .raise (err (attempt + 1)) := by
        apply hraise <;> omega
      rw [runRetry_step_raise call _ attempt resp le sleeps _ hcall]
      rw [ih (attempt + 1) resp (some (err (attempt + 1))) (sleeps + 1)
        (by intro i h1 h2; apply hraise <;> omega)
        (by have h : attempt + 1 + (r' + 1) = attempt + (r' + 1 + 1) := by omega
            rw [h]; exact hret)
        (by omega)]
      have h1 : sleeps + 1 + (r' + 1 - 1) = sleeps + (r' + 1 + 1 - 1) := by omega
      have h2 : attempt + 1 + (r' + 1) = attempt + (r' + 1 + 1) := by omega
      rw [h1, h2]

/-- If every call in `(attempt, attempt + rem]` raises, the loop exhausts
its budget: `response` is unchanged, `last_exception` is the exception of
call `attempt + rem` (for `rem ≥ 1`), one sleep per failure. -/
theorem runRetry_all_raise (call : Nat → CallResult E V) (err : Nat → E) :
    ∀ (rem attempt : Nat) (resp : Option V) (le : Option E) (sleeps : Nat),
      (∀ i, attempt < i → i ≤ attempt + rem → call i = .raise (err i)) →
      runRetry call rem attempt resp le sleeps =
        ⟨resp, if rem = 0 then le else some (err (attempt + rem)),
          sleeps + rem, attempt + rem⟩ := by
  intro rem
  induction rem with
  | zero => intro attempt resp le sleeps _; simp [runRetry]
  | succ r ih =>
    intro attempt resp le sleeps hraise
    have hcall : call (attempt + 1) = .raise (err (attempt + 1)) := by
      apply hraise <;> omega
    rw [runRetry_step_raise call r attempt resp le sleeps _ hcall]
    rw [ih (attempt + 1) resp (some (err (attempt + 1))) (sleeps + 1)
      (by intro i h1 h2; apply hraise <;> omega)]
    have h2 : attempt + 1 + r = attempt + (r + 1) := by omega
    have h3 : sleeps + 1 + r = sleeps + (r + 1) := by omega
    cases hr : r with
    | zero => subst hr; simp
    | succ r' =>
      subst hr
      simp only [h2, h3]
      simp

/-- C1: for a wrapped operation that raises on each of its first `N - 1`
calls and returns a non-`None` value on the `N`-th, `call_with_retry`
with `n_retries = N` returns that value having made exactly `N` calls and
`N - 1` sleeps (each sleep following one of the failures, after all of
which attempts remained); for an operation that raises on every call,
`call_with_retry` with `n_retries = K ≥ 1` makes exactly `K` calls and
then raises the configured exception type with the `K`-th (last)
underlying exception as its cause. -/
theorem C1_call_with_retry (call : Nat → CallResult E V) (err : Nat → E)
    (v : V) (N K : Nat) :
    ((∀ i, 1 ≤ i → i < N → call i = .raise (err i)) →
      call N = .ret (some v) → 1 ≤ N →
      call_with_retry call N = ⟨.ok v, N - 1, N⟩) ∧
    ((∀ i, 1 ≤ i → i ≤ K → call i = .raise (err i)) → 1 ≤ K →
      call_with_retry call K = ⟨.error (some (err K)), K, K⟩) := by
  constructor
  · intro hraise hret hN
    have h := runRetry_raise_then_ret call err v N 0 none none 0
      (by intro i h1 h2; exact hraise i (by omega) (by omega))
      (by simpa using hret) hN
    unfold call_with_retry
    rw [h]
    simp
  · intro hraise hK
    have h := runRetry_all_raise call err K 0 none none 0
      (by intro i h1 h2; exact hraise i (by omega) (by omega))
    unfold call_with_retry
    rw [h]
    have hne : K ≠ 0 := by omega
    simp [hne]

/-- Witness for C1 at concrete inputs: an operation failing twice then
returning `7` with budget `3`, and an always-failing operation with
budget `2`. -/
theorem C1_call_with_retry_witness :
    call_with_retry (fun i => if i < 3 then .raise "boom" else .ret (some 7)) 3 =
      (⟨.ok 7, 2, 3⟩ : RetryResult String Nat) ∧
    call_with_retry (fun _ => (.raise "bang" : CallResult String Nat)) 2 =
      ⟨.error (some "bang"), 2, 2⟩ := by
  constructor
  · exact (C1_call_with_retry _ (fun _ => "boom") 7 3 0).1
      (by intro i h1 h2; interval_cases i <;> rfl) rfl (by norm_num)
  · exact (C1_call_with_retry _ (fun _ => "bang") 0 0 2).2
      (by intro i _ _; rfl) (by norm_num)

/-! ## C4: `broadcast_tx` rejection vs confirmation -/

/-- C4: whenever the synchronous broadcast acknowledgment has a non-zero
response code, `broadcast_tx` raises `BroadcastException` carrying the
node's raw log, does not enter confirmation polling and returns no
confirmed result; polling by the acknowledgment's hash is entered exactly
when the acknowledgment code is zero, and any confirmed result returned
comes from that polling. -/
theorem C4_broadcast_tx (broadcastCall : Nat → CallResult E BroadcastTxResponse)
    (getTxCall : String → Nat → CallResult E GetTxResponse)
    (retries n_get_response_retries : Nat) :
    (∀ ack, (call_with_retry broadcastCall retries).result = .ok ack →
      ack.tx_response.code ≠ 0 →
      broadcast_tx broadcastCall getTxCall retries n_get_response_retries =
        (.error (.rejected ack.tx_response.raw_log), false)) ∧
    ((broadcast_tx broadcastCall getTxCall retries n_get_response_retries).2 = true →
      ∃ ack, (call_with_retry broadcastCall retries).result = .ok ack ∧
        ack.tx_response.code = 0) ∧
    (∀ ack, (call_with_retry broadcastCall retries).result = .ok ack →
      ack.tx_response.code = 0 →
      (broadcast_tx broadcastCall getTxCall retries n_get_response_retries).2 = true ∧
      ∀ res,
        (broadcast_tx broadcastCall getTxCall retries n_get_response_retries).1 = .ok res →
        (get_tx getTxCall n_get_response_retries ack.tx_response.txhash).result = .ok res) := by
  refine ⟨?_, ?_, ?_⟩
  · intro ack hack hcode
    unfold broadcast_tx
    rw [hack]
    simp [hcode]
  · intro hpolled
    unfold broadcast_tx at hpolled
    rcases hb : (call_with_retry broadcastCall retries).result with cause | ack
    · rw [hb] at hpolled; simp at hpolled
    · rw [hb] at hpolled
      by_cases hcode : ack.tx_response.code = 0
      · exact ⟨ack, rfl, hcode⟩
      · simp [hcode] at hpolled
  · intro ack hack hcode
    unfold broadcast_tx
    rw [hack]
    simp only [hcode, ne_eq, not_true_eq_false, if_false]
    rcases hg : (get_tx getTxCall n_get_response_retries ack.tx_response.txhash).result
      with cause | res
    · simp
    · simp

/-- Witness for C4: a second-try accepted acknowledgment with code 3 is
rejected without polling, and an accepted code-0 acknowledgment leads to
the polled confirmation. -/
theorem C4_broadcast_tx_witness :
    broadcast_tx (E := String)
        (fun _ => .ret (some ⟨⟨3, "bad sequence", "H1"⟩⟩))
        (fun _ _ => .ret (some ⟨⟨0, "", "H1"⟩⟩)) 1 1 =
      (.error (.rejected "bad sequence"), false) ∧
    (broadcast_tx (E := String)
        (fun _ => .ret (some ⟨⟨0, "", "H2"⟩⟩))
        (fun _ _ => .ret (some ⟨⟨0, "ok", "H2"⟩⟩)) 1 1).2 = true := by
  constructor
  · exact (C4_broadcast_tx (E := String)
      (fun _ => .ret (some ⟨⟨3, "bad sequence", "H1"⟩⟩))
      (fun _ _ => .ret (some ⟨⟨0, "", "H1"⟩⟩)) 1 1).1
      ⟨⟨3, "bad sequence", "H1"⟩⟩ rfl (by decide)
  · exact ((C4_broadcast_tx (E := String)
      (fun _ => .ret (some ⟨⟨0, "", "H2"⟩⟩))
      (fun _ _ => .ret (some ⟨⟨0, "ok", "H2"⟩⟩)) 1 1).2.2
      ⟨⟨0, "", "H2"⟩⟩ rfl rfl).1

/-! ## C5: `execute_contract` returns the application code -/

/-- C5: when `execute_contract`'s attempt loop ends with a confirmed
response (broadcast accepted and confirmation obtained), the call does
not raise, whatever the confirmation record's response code: it returns
the pair of the full confirmed result and that code — in particular code
5 is returned as `(result, 5)`. -/
theorem C5_execute_contract (att : Nat → CallResult E GetTxResponse)
    (n_retries : Nat) (r : GetTxResponse) :
    (execute_loop att n_retries 0 none none 0).res = some r →
    execute_contract att n_retries = .ok (r, r.tx_response.code) := by
  intro h
  simp [execute_contract, h]

/-- Witness for C5: a first-attempt confirmation with application
response code 5 is returned as `(result, 5)` without raising. -/
theorem C5_execute_contract_witness :
    execute_contract (E := String)
        (fun _ => .ret (some ⟨⟨5, "contract error", "H"⟩⟩)) 1 =
      .ok (⟨⟨5, "contract error", "H"⟩⟩, 5) := by
  exact C5_execute_contract _ 1 ⟨⟨5, "contract error", "H"⟩⟩ rfl

/-! ## C6: `generate_tx` -/

/-- C6: for equal-length message/address/key lists, `generate_tx` builds a
transaction whose `auth_info` has exactly one `SignerInfo` per sender, in
input order, each with mode `SIGN_MODE_DIRECT` and with `sequence` taken
from the account returned by the per-address account query performed
during this build; the body carries exactly the given messages in order,
the memo, and the given fee and gas limit. -/
theorem C6_generate_tx (query : String → BaseAccount) (packed_msgs : List M)
    (from_addresses : List String) (pub_keys : List (List Nat))
    (fee : List Coin) (memo : String) (gas_limit : Nat)
    (hlen : from_addresses.length = pub_keys.length) :
    (generate_tx query packed_msgs from_addresses pub_keys fee memo
        gas_limit).auth_info.signer_infos.length = from_addresses.length ∧
    (∀ i (hs : i < (generate_tx query packed_msgs from_addresses pub_keys fee memo
          gas_limit).auth_info.signer_infos.length)
        (ha : i < from_addresses.length) (hp : i < pub_keys.length),
      (generate_tx query packed_msgs from_addresses pub_keys fee memo
          gas_limit).auth_info.signer_infos.get ⟨i, hs⟩ =
        { public_key := ⟨pub_keys.get ⟨i, hp⟩⟩
          mode_info := ⟨.direct⟩
          sequence := (query (from_addresses.get ⟨i, ha⟩)).sequence }) ∧
    (generate_tx query packed_msgs from_addresses pub_keys fee memo
        gas_limit).body.messages = packed_msgs ∧
    (generate_tx query packed_msgs from_addresses pub_keys fee memo
        gas_limit).body.memo = memo ∧
    (generate_tx query packed_msgs from_addresses pub_keys fee memo
        gas_limit).auth_info.fee = ⟨fee, gas_limit⟩ := by
  refine ⟨?_, ?_, rfl, rfl, rfl⟩
  · simp [generate_tx, hlen]
  · intro i hs ha hp
    simp [generate_tx, _get_signer_info, List.get_eq_getElem, List.getElem_map,
      List.getElem_zip]

/-- Witness for C6 at a concrete two-signer build. -/
theorem C6_generate_tx_witness :
    (generate_tx (M := String)
        (fun a => if a = "addr1" then ⟨11, 7⟩ else ⟨22, 9⟩)
        ["m1", "m2"] ["addr1", "addr2"] [[1], [2]] [⟨"atom", 10⟩] "memo!"
        200).auth_info.signer_infos.length = 2 ∧
    (generate_tx (M := String)
        (fun a => if a = "addr1" then ⟨11, 7⟩ else ⟨22, 9⟩)
        ["m1", "m2"] ["addr1", "addr2"] [[1], [2]] [⟨"atom", 10⟩] "memo!"
        200).auth_info.signer_infos.get ⟨1, by simp [generate_tx]⟩ =
      { public_key := ⟨[2]⟩, mode_info := ⟨.direct⟩, sequence := 9 } := by
  have h := C6_generate_tx (fun a => if a = "addr1" then ⟨11, 7⟩ else ⟨22, 9⟩)
    ["m1", "m2"] ["addr1", "addr2"] [[1], [2]] [⟨"atom", 10⟩] "memo!" 200 rfl
  refine ⟨h.1, ?_⟩
  rw [h.2.1 1 (by simp [generate_tx]) (by decide) (by decide)]
  simp

/-! ## C10: `_ensure_accont_number` and `sign_tx` -/

/-- C10: whenever `_ensure_accont_number` returns without raising, the
crypto's account number is set; consequently `sign_tx`'s explicit
`RuntimeError("Getting account number failed")` branch is unreachable —
every `sign_tx` error comes from the account query — and on success the
signing step runs with the known account number. -/
theorem C10_sign_tx_account_number {Q : Type}
    (queryResult : Except Q BaseAccount) (crypto : CryptoState) :
    (∀ crypto', _ensure_accont_number queryResult crypto = .ok crypto' →
      crypto'.account_number.isSome = true) ∧
    (∀ e, sign_tx queryResult crypto = .error e →
      ∃ q, e = SignErr.queryFailed q) ∧
    (∀ crypto' n, sign_tx queryResult crypto = .ok (crypto', n) →
      crypto'.account_number = some n) := by
  rcases crypto with ⟨an⟩
  rcases an with _ | m
  · rcases queryResult with q | account
    · refine ⟨?_, ?_, ?_⟩
      · intro c' hc'; simp [_ensure_accont_number] at hc'
      · intro e he
        simp [sign_tx, _ensure_accont_number] at he
        exact ⟨q, he.symm⟩
      · intro c' n h; simp [sign_tx, _ensure_accont_number] at h
    · refine ⟨?_, ?_, ?_⟩
      · intro c' hc'
        simp [_ensure_accont_number] at hc'
        simp [← hc']
      · intro e he; simp [sign_tx, _ensure_accont_number] at he
      · intro c' n h
        simp [sign_tx, _ensure_accont_number] at h
        simp [← h.1, h.2]
  · refine ⟨?_, ?_, ?_⟩
    · intro c' hc'
      simp [_ensure_accont_number] at hc'
      simp [← hc']
    · intro e he; simp [sign_tx, _ensure_accont_number] at he
    · intro c' n h
      simp [sign_tx, _ensure_accont_number] at h
      simp [← h.1, h.2]

/-- Witness for C10: an unset account number filled from a successful
query, and signing proceeding with it. -/
theorem C10_sign_tx_account_number_witness :
    (∀ crypto',
      _ensure_accont_number (Q := Unit) (.ok ⟨41, 6⟩) ⟨none⟩ = .ok crypto' →
      crypto'.account_number.isSome = true) ∧
    (∀ crypto' n,
      sign_tx (Q := Unit) (.ok ⟨41, 6⟩) ⟨none⟩ = .ok (crypto', n) →
      crypto'.account_number = some n) := by
  exact ⟨(C10_sign_tx_account_number (.ok ⟨41, 6⟩) ⟨none⟩).1,
    (C10_sign_tx_account_number (.ok ⟨41, 6⟩) ⟨none⟩).2.2⟩

/-! ## C2: the faucet refill loop -/

/-- One refill iteration that observes a below-threshold balance:
faucet claim, sleep, continue. -/
theorem refill_step_below (ev : Nat → RefillEvent) (min_req rem attempt sleeps b : Nat)
    (hev : ev (attempt + 1) = .balanceIs b) (hb : b < min_req) :
    refill_loop ev min_req (rem + 1) attempt sleeps =
      refill_loop ev min_req rem (attempt + 1) (sleeps + 1) := by
  simp only [refill_loop, hev, if_pos hb]

/-- One refill iteration whose balance read raises: sleep, continue. -/
theorem refill_step_raise (ev : Nat → RefillEvent) (min_req rem attempt sleeps : Nat)
    (hev : ev (attempt + 1) = .raiseExn) :
    refill_loop ev min_req (rem + 1) attempt sleeps =
      refill_loop ev min_req rem (attempt + 1) (sleeps + 1) := by
  simp only [refill_loop, hev]

/-- If all balance reads in `(attempt, attempt + rem]` stay below the
threshold, the loop gives up at attempt `attempt + rem` with one sleep
per iteration. -/
theorem refill_loop_all_below (ev : Nat → RefillEvent) (min_req : Nat) :
    ∀ (rem attempt sleeps : Nat),
      (∀ i, attempt < i → i ≤ attempt + rem →
        ∃ b, ev i = .balanceIs b ∧ b < min_req) →
      refill_loop ev min_req rem attempt sleeps =
        ⟨.gaveUp, attempt + rem, sleeps + rem⟩ := by
  intro rem
  induction rem with
  | zero => intro attempt sleeps _; simp [refill_loop]
  | succ r ih =>
    intro attempt sleeps hbelow
    obtain ⟨b, hev, hb⟩ := hbelow (attempt + 1) (by omega) (by omega)
    rw [refill_step_below ev min_req r attempt sleeps b hev hb]
    rw [ih (attempt + 1) (sleeps + 1)
      (by intro i h1 h2; exact hbelow i (by omega) (by omega))]
    have h1 : attempt + 1 + r = attempt + (r + 1) := by omega
    have h2 : sleeps + 1 + r = sleeps + (r + 1) := by omega
    rw [h1, h2]

/-- If the reads before `k` stay below the threshold and the read at `k`
reaches it, the loop breaks at attempt `k` having slept `k - attempt - 1`
more times. -/
theorem refill_loop_first_reach (ev : Nat → RefillEvent) (min_req k bk : Nat)
    (hevk : ev k = .balanceIs bk) (hbk : min_req ≤ bk) :
    ∀ (rem attempt sleeps : Nat),
      (∀ i, attempt < i → i < k → ∃ b, ev i = .balanceIs b ∧ b < min_req) →
      attempt < k → k ≤ attempt + rem →
      refill_loop ev min_req rem attempt sleeps =
        ⟨.reached bk, k, sleeps + (k - attempt - 1)⟩ := by
  intro rem
  induction rem with
  | zero => intro attempt sleeps _ h1 h2; omega
  | succ r ih =>
    intro attempt sleeps hbelow h1 h2
    by_cases hk : attempt + 1 = k
    · subst hk
      simp only [refill_loop, hevk]
      rw [if_neg (show ¬ bk < min_req by omega)]
      simp
    · obtain ⟨b, hev, hb⟩ := hbelow (attempt + 1) (by omega) (by omega)
      rw [refill_step_below ev min_req r attempt sleeps b hev hb]
      rw [ih (attempt + 1) (sleeps + 1)
        (by intro i hi1 hi2; exact hbelow i (by omega) hi2) (by omega) (by omega)]
      have h3 : sleeps + 1 + (k - (attempt + 1) - 1) = sleeps + (k - attempt - 1) := by
        omega
      rw [h3]

/-- Counterexample to C2: with `n_total_msg_retries = 2` and every poll
reading balance `0` (below the threshold `500000000`), the per-address
faucet loop terminates after exactly 2 iterations, giving up with the
balance still below the threshold — so the loop has a hard attempt cap
and does not terminate only on reaching the threshold. -/
theorem C2_refill_counterexample :
    refill_wealth_from_faucet_addr (fun _ => .balanceIs 0) 500000000 2 =
      ⟨.gaveUp, 2, 2⟩ ∧ 0 < 500000000 := by
  exact ⟨rfl, by norm_num⟩

/-- C2 (amended): the per-address polling loop of
`refill_wealth_from_faucet` is capped at `n_total_msg_retries`
iterations; each below-threshold poll requests a faucet top-up and
sleeps the faucet retry interval, consuming one attempt of the cap; the
loop ends early at the first poll whose balance reaches the threshold,
and otherwise gives up silently after `n_total_msg_retries` iterations
with the balance still below the threshold. -/
theorem C2_refill_amended (ev : Nat → RefillEvent)
    (min_amount_required n_total_msg_retries k bk : Nat) :
    ((∀ i, 1 ≤ i → i ≤ n_total_msg_retries →
        ∃ b, ev i = .balanceIs b ∧ b < min_amount_required) →
      refill_wealth_from_faucet_addr ev min_amount_required n_total_msg_retries =
        ⟨.gaveUp, n_total_msg_retries, n_total_msg_retries⟩) ∧
    ((∀ i, 1 ≤ i → i < k → ∃ b, ev i = .balanceIs b ∧ b < min_amount_required) →
      ev k = .balanceIs bk → min_amount_required ≤ bk →
      1 ≤ k → k ≤ n_total_msg_retries →
      refill_wealth_from_faucet_addr ev min_amount_required n_total_msg_retries =
        ⟨.reached bk, k, k - 1⟩) := by
  constructor
  · intro hbelow
    unfold refill_wealth_from_faucet_addr
    rw [refill_loop_all_below ev min_amount_required n_total_msg_retries 0 0
      (by intro i h1 h2; exact hbelow i (by omega) (by omega))]
    simp
  · intro hbelow hevk hbk hk1 hk2
    unfold refill_wealth_from_faucet_addr
    rw [refill_loop_first_reach ev min_amount_required k bk hevk hbk
      n_total_msg_retries 0 0
      (by intro i h1 h2; exact hbelow i (by omega) h2) (by omega) (by omega)]
    simp

/-- Witness for the amended C2: two below-threshold polls then a
sufficient balance on the third, with budget 5. -/
theorem C2_refill_amended_witness :
    refill_wealth_from_faucet_addr
        (fun i => if i < 3 then .balanceIs 7 else .balanceIs 600000000)
        500000000 5 = ⟨.reached 600000000, 3, 2⟩ := by
  exact (C2_refill_amended
      (fun i => if i < 3 then .balanceIs 7 else .balanceIs 600000000)
      500000000 5 3 600000000).2
    (by intro i h1 h2; interval_cases i <;> exact ⟨7, rfl, by norm_num⟩)
    rfl (by norm_num) (by norm_num) (by norm_num)

/-! ## C7: `_find_item` -/

/-- Statement that `d` is a dict one of whose own values is a string matching `p` — what
`_find_item` promises about a returned dict. -/
def hasMatchingEntry (p : String → Bool) (d : Json) : Prop :=
  ∃ flds, d = Json.obj flds ∧ ∃ k s, (k, Json.str s) ∈ flds ∧ p s = true

/-- The claim's example tree
`{"events":[{"attributes":[{"key":"code_id","value":"42"}]}]}`. -/
def exampleLog : Json :=
  .obj [("events", .arr [.obj [("attributes",
    .arr [.obj [("key", .str "code_id"), ("value", .str "42")]])]])]

/-- The innermost dict of `exampleLog`, the one containing `"value": "42"`. -/
def exampleInnerDict : Json :=
  .obj [("key", .str "code_id"), ("value", .str "42")]

mutual

/-- If no dict value anywhere in `j` matches, `_find_item` returns `None`. -/
theorem find_item_none_of_no_match (p : String → Bool) :
    ∀ j, jsonHasMatch p j = false → find_item p j = none
  | .str _, _ => rfl
  | .num _, _ => rfl
  | .bool _, _ => rfl
  | .null, _ => rfl
  | .arr items, h => by
    simp only [jsonHasMatch] at h
    simpa only [find_item] using find_item_list_none_of_no_match p items h
  | .obj fields, h => by
    simp only [jsonHasMatch] at h
    simpa only [find_item] using
      find_item_fields_none_of_no_match p (.obj fields) fields h

/-- List version of `find_item_none_of_no_match`. -/
theorem find_item_list_none_of_no_match (p : String → Bool) :
    ∀ l, jsonHasMatchList p l = false → find_item_list p l = none
  | [], _ => rfl
  | x :: xs, h => by
    simp only [jsonHasMatchList, Bool.or_eq_false_iff] at h
    have h1 := find_item_none_of_no_match p x h.1
    have h2 := find_item_list_none_of_no_match p xs h.2
    simp only [find_item_list, h1, h2]

/-- Dict-entry version of `find_item_none_of_no_match`. -/
theorem find_item_fields_none_of_no_match (p : String → Bool) (whole : Json) :
    ∀ fs, jsonHasMatchFields p fs = false → find_item_fields p whole fs = none
  | [], _ => rfl
  | (k, v) :: rest, h => by
    simp only [jsonHasMatchFields, Bool.or_eq_false_iff] at h
    obtain ⟨⟨hm, hv⟩, hrest⟩ := h
    have h1 := find_item_none_of_no_match p v hv
    have h2 := find_item_fields_none_of_no_match p whole rest hrest
    simp only [find_item_fields, hm, Bool.false_eq_true, if_false, h1, h2]

end

mutual

/-- If some dict value in `j` matches, `_find_item` finds something. -/
theorem find_item_isSome_of_match (p : String → Bool) :
    ∀ j, jsonHasMatch p j = true → (find_item p j).isSome = true
  | .str _, h => by simp [jsonHasMatch] at h
  | .num _, h => by simp [jsonHasMatch] at h
  | .bool _, h => by simp [jsonHasMatch] at h
  | .null, h => by simp [jsonHasMatch] at h
  | .arr items, h => by
    simp only [jsonHasMatch] at h
    simpa only [find_item] using find_item_list_isSome_of_match p items h
  | .obj fields, h => by
    simp only [jsonHasMatch] at h
    simpa only [find_item] using
      find_item_fields_isSome_of_match p (.obj fields) fields h

/-- List version of `find_item_isSome_of_match`. -/
theorem find_item_list_isSome_of_match (p : String → Bool) :
    ∀ l, jsonHasMatchList p l = true → (find_item_list p l).isSome = true
  | x :: xs, h => by
    simp only [jsonHasMatchList, Bool.or_eq_true] at h
    rcases hfx : find_item p x with _ | r
    · rcases h with hx | hxs
      · have := find_item_isSome_of_match p x hx
        rw [hfx] at this
        simp at this
      · have := find_item_list_isSome_of_match p xs hxs
        simpa only [find_item_list, hfx] using this
    · simp only [find_item_list, hfx, Option.isSome_some]

/-- Dict-entry version of `find_item_isSome_of_match`. -/
theorem find_item_fields_isSome_of_match (p : String → Bool) (whole : Json) :
    ∀ fs, jsonHasMatchFields p fs = true →
      (find_item_fields p whole fs).isSome = true
  | (k, v) :: rest, h => by
    simp only [jsonHasMatchFields, Bool.or_eq_true] at h
    by_cases hm : strMatches p v = true
    · simp only [find_item_fields, hm, if_true, Option.isSome_some]
    · have hm' : strMatches p v = false := by simpa using hm
      simp only [find_item_fields, hm', Bool.false_eq_true, if_false]
      rcases hfv : find_item p v with _ | r
      · rcases h with (hv1 | hv) | hrest
        · rw [hm'] at hv1; simp at hv1
        · have := find_item_isSome_of_match p v hv
          rw [hfv] at this
          simp at this
        · exact find_item_fields_isSome_of_match p whole rest hrest
      · simp only [Option.isSome_some]

end

mutual

/-- Any dict returned by `_find_item` has a direct string value matching
the pattern. -/
theorem find_item_sound (p : String → Bool) :
    ∀ j d, find_item p j = some d → hasMatchingEntry p d
  | .arr items, d, h =>
    find_item_list_sound p items d (by simpa only [find_item] using h)
  | .obj fields, d, h =>
    find_item_fields_sound p fields fields d (fun kv hkv => hkv)
      (by simpa only [find_item] using h)

/-- List version of `find_item_sound`. -/
theorem find_item_list_sound (p : String → Bool) :
    ∀ l d, find_item_list p l = some d → hasMatchingEntry p d
  | x :: xs, d, h => by
    rcases hfx : find_item p x with _ | r
    · simp only [find_item_list, hfx] at h
      exact find_item_list_sound p xs d h
    · simp only [find_item_list, hfx] at h
      cases h
      exact find_item_sound p x d hfx

/-- Dict-entry version of `find_item_sound`: `fs` is a sub-list of the
entries `fields0` of the dict being iterated. -/
theorem find_item_fields_sound (p : String → Bool) (fields0 : List (String × Json)) :
    ∀ fs d, (∀ kv, kv ∈ fs → kv ∈ fields0) →
      find_item_fields p (.obj fields0) fs = some d → hasMatchingEntry p d
  | (k, v) :: rest, d, hsub, h => by
    by_cases hm : strMatches p v = true
    · simp only [find_item_fields, hm, if_true] at h
      cases h
      cases v with
      | str s =>
        exact ⟨fields0, rfl, k, s, hsub (k, .str s) (.head _),
          by simpa [strMatches] using hm⟩
      | num n => simp [strMatches] at hm
      | bool b => simp [strMatches] at hm
      | null => simp [strMatches] at hm
      | arr l => simp [strMatches] at hm
      | obj fs => simp [strMatches] at hm
    · have hm' : strMatches p v = false := by simpa using hm
      simp only [find_item_fields, hm', Bool.false_eq_true, if_false] at h
      rcases hfv : find_item p v with _ | r
      · rw [hfv] at h
        exact find_item_fields_sound p fields0 rest d
          (fun kv hkv => hsub kv (.tail _ hkv)) h
      · rw [hfv] at h
        cases h
        exact find_item_sound p v d hfv

end

/-- C7: `_find_item` performs the depth-first search the claim describes:
on the example log with the `code_id` pattern it returns the innermost
dict containing `"value": "42"`; it returns `None` exactly when no dict
value in the tree matches the pattern (keys are never matched — a tree
whose only occurrence of `code_id` is a key yields `None`); and any dict
it returns has some string-typed value matching the pattern. -/
theorem C7_find_item (p : String → Bool) :
    find_item (markerMatch "code_id") exampleLog = some exampleInnerDict ∧
    (∀ j, jsonHasMatch p j = false → find_item p j = none) ∧
    (∀ j, jsonHasMatch p j = true → (find_item p j).isSome = true) ∧
    (∀ j d, find_item p j = some d → hasMatchingEntry p d) ∧
    find_item (markerMatch "code_id") (.obj [("code_id", .num 42)]) = none := by
  refine ⟨rfl, find_item_none_of_no_match p, find_item_isSome_of_match p,
    find_item_sound p, rfl⟩

/-- Witness for C7: the no-match direction evaluated on a concrete tree
with no matching value, and soundness applied to the example log. -/
theorem C7_find_item_witness :
    find_item (markerMatch "code_id")
      (.arr [.str "code_id", .obj [("k", .str "nothing")]]) = none ∧
    hasMatchingEntry (markerMatch "code_id") exampleInnerDict := by
  constructor
  · exact (C7_find_item (markerMatch "code_id")).2.1
      (.arr [.str "code_id", .obj [("k", .str "nothing")]]) rfl
  · exact (C7_find_item (markerMatch "code_id")).2.2.2.1 exampleLog
      exampleInnerDict rfl

/-! ## C8: `is_valid_crypto_address` with a literal prefix -/

/-- Lemma: `consumeLit` succeeds exactly on inputs starting with the literal. -/
theorem consumeLit_eq_some : ∀ (l s r : List Char),
    consumeLit l s = some r ↔ s = l ++ r
  | [], s, r => by simp [consumeLit]
  | c :: l, [], r => by simp [consumeLit]
  | c :: l, d :: s, r => by
    by_cases hcd : c = d
    · subst hcd
      simp [consumeLit, consumeLit_eq_some l s r]
    · simp only [consumeLit, if_neg hcd, List.cons_append, List.cons.injEq]
      constructor
      · rintro ⟨⟩
      · rintro ⟨h, _⟩
        exact absurd h.symm hcd

/-- Lemma: `consumeClass` succeeds exactly when the input starts with `k`
characters of the class. -/
theorem consumeClass_eq_some (cls : Char → Bool) : ∀ (k : Nat) (s r : List Char),
    consumeClass cls k s = some r ↔
      ∃ t, s = t ++ r ∧ t.length = k ∧ t.all cls = true
  | 0, s, r => by
    simp only [consumeClass, Option.some_inj]
    constructor
    · rintro rfl; exact ⟨[], rfl, rfl, rfl⟩
    · rintro ⟨t, hs, hlen, _⟩
      rw [List.length_eq_zero] at hlen
      subst hlen
      simpa using hs
  | k + 1, [], r => by
    simp only [consumeClass]
    constructor
    · rintro ⟨⟩
    · rintro ⟨t, hs, hlen, _⟩
      have := congrArg List.length hs
      simp at this
      omega
  | k + 1, c :: s, r => by
    by_cases hc : cls c = true
    · simp only [consumeClass, hc, if_true, consumeClass_eq_some cls k s r]
      constructor
      · rintro ⟨t, hs, hlen, hall⟩
        exact ⟨c :: t, by simp [hs], by simp [hlen], by simp [hall, hc]⟩
      · rintro ⟨t, hs, hlen, hall⟩
        cases t with
        | nil => simp at hlen
        | cons t0 t' =>
          simp only [List.cons_append, List.cons.injEq] at hs
          obtain ⟨rfl, hs'⟩ := hs
          refine ⟨t', hs', by simpa using hlen, ?_⟩
          simp only [List.all_cons, Bool.and_eq_true] at hall
          exact hall.2
    · have hc' : cls c = false := by simpa using hc
      simp only [consumeClass, hc', Bool.false_eq_true, if_false]
      constructor
      · rintro ⟨⟩
      · rintro ⟨t, hs, hlen, hall⟩
        cases t with
        | nil => simp at hlen
        | cons t0 t' =>
          simp only [List.cons_append, List.cons.injEq] at hs
          obtain ⟨rfl, _⟩ := hs
          simp only [List.all_cons, Bool.and_eq_true] at hall
          rw [hc'] at hall
          exact absurd hall.1 (by simp)

/-- Python's `$` accepts exactly the empty remainder or a single final
newline. -/
theorem pyDollar_eq_true : ∀ r : List Char,
    pyDollar r = true ↔ r = [] ∨ r = ['\n']
  | [] => by simp [pyDollar]
  | [c] => by
    simp only [pyDollar]
    constructor
    · intro h; right; simpa using h
    · rintro (h | h)
      · exact absurd h (by simp)
      · simp only [List.cons.injEq] at h
        simp [h.1]
  | c :: d :: t => by simp [pyDollar]

/-- Counterexample to C8: with the literal prefix `"cosmos"`, the address
consisting of the prefix, 39 valid characters *and a trailing newline* is
accepted by `is_valid_crypto_address` (Python's `$` matches before a
final newline), although it is not of the form prefix + exactly 39
`[0-9a-z]` characters. -/
theorem C8_is_valid_crypto_address_counterexample :
    is_valid_crypto_address
        ("cosmos".toList ++ (List.replicate 39 'a' ++ ['\n'])) "cosmos".toList
      = true ∧
    ¬ ∃ s, "cosmos".toList ++ (List.replicate 39 'a' ++ ['\n']) =
        "cosmos".toList ++ s ∧ s.length = 39 ∧ s.all addrBodyChar = true := by
  constructor
  · decide
  · rintro ⟨s, hs, hlen, _⟩
    have h := congrArg List.length hs
    simp at h
    omega

/-- C8 (amended): for a literal (metacharacter-free) prefix `pre`,
`is_valid_crypto_address(address, pre)` returns true exactly for strings
consisting of `pre` followed by exactly 39 characters from `[0-9a-z]`,
*optionally followed by one trailing newline* (Python's `$` matches just
before a final newline); every other string — e.g. the too-short
`"cosmos1abc"` — is rejected. -/
theorem C8_is_valid_crypto_address_amended :
    (∀ (pre a : List Char),
      is_valid_crypto_address a pre = true ↔
        (∃ s, a = pre ++ s ∧ s.length = 39 ∧ s.all addrBodyChar = true) ∨
        (∃ s, a = pre ++ (s ++ ['\n']) ∧ s.length = 39 ∧
          s.all addrBodyChar = true)) ∧
    is_valid_crypto_address "cosmos1abc".toList "cosmos".toList = false ∧
    is_valid_crypto_address ("cosmos".toList ++ List.replicate 39 'a')
      "cosmos".toList = true := by
  refine ⟨?_, by decide, by decide⟩
  intro pre a
  constructor
  · intro h
    rcases h1 : consumeLit pre a with _ | r1
    · simp only [is_valid_crypto_address, h1] at h
      cases h
    · rcases h2 : consumeClass addrBodyChar 39 r1 with _ | r2
      · simp only [is_valid_crypto_address, h1, h2] at h
        cases h
      · simp only [is_valid_crypto_address, h1, h2] at h
        have ha : a = pre ++ r1 := (consumeLit_eq_some pre a r1).mp h1
        obtain ⟨t, hr1, hlen, hall⟩ :=
          (consumeClass_eq_some addrBodyChar 39 r1 r2).mp h2
        rcases (pyDollar_eq_true r2).mp h with rfl | rfl
        · exact .inl ⟨t, by simp [ha, hr1], hlen, hall⟩
        · exact .inr ⟨t, by simp [ha, hr1], hlen, hall⟩
  · intro h
    rcases h with ⟨s, ha, hlen, hall⟩ | ⟨s, ha, hlen, hall⟩
    · simp only [is_valid_crypto_address, (consumeLit_eq_some pre a s).mpr ha,
        (consumeClass_eq_some addrBodyChar 39 s []).mpr ⟨s, by simp, hlen, hall⟩]
      rfl
    · simp only [is_valid_crypto_address,
        (consumeLit_eq_some pre a (s ++ ['\n'])).mpr ha,
        (consumeClass_eq_some addrBodyChar 39 (s ++ ['\n']) ['\n']).mpr
          ⟨s, rfl, hlen, hall⟩]
      rfl

/-! ## C9: `get_contract_address` and the default address check -/

/-- What `^[a-z]+[0-9a-z]{39}$` (the default-prefix pattern) accepts:
a nonempty all-lowercase-letter prefix, exactly 39 class characters, and
an empty or single-newline tail (Python `$`). -/
theorem is_valid_crypto_address_default_iff : ∀ a : List Char,
    is_valid_crypto_address_default a = true ↔
      ∃ u v r, a = u ++ (v ++ r) ∧ u ≠ [] ∧ u.all lowerAlpha = true ∧
        v.length = 39 ∧ v.all addrBodyChar = true ∧ (r = [] ∨ r = ['\n'])
  | [] => by
    simp only [is_valid_crypto_address_default]
    constructor
    · rintro ⟨⟩
    · rintro ⟨u, v, r, heq, hne, _⟩
      cases u with
      | nil => exact (hne rfl).elim
      | cons _ _ => simp at heq
  | c :: s => by
    simp only [is_valid_crypto_address_default, Bool.and_eq_true, Bool.or_eq_true]
    constructor
    · rintro ⟨hc, hX | hD⟩
      · rcases h2 : consumeClass addrBodyChar 39 s with _ | r2
        · simp only [h2] at hX; cases hX
        · simp only [h2] at hX
          obtain ⟨t, hs, hlen, hall⟩ := (consumeClass_eq_some _ 39 s r2).mp h2
          exact ⟨[c], t, r2, by simp [hs], by simp, by simp [hc], hlen, hall,
            (pyDollar_eq_true r2).mp hX⟩
      · obtain ⟨u, v, r, heq, hne, hu, hlen, hall, hr⟩ :=
          (is_valid_crypto_address_default_iff s).mp hD
        exact ⟨c :: u, v, r, by simp [heq], by simp, by simp [hc, hu], hlen,
          hall, hr⟩
    · rintro ⟨u, v, r, heq, hne, hu, hlen, hall, hr⟩
      cases u with
      | nil => exact absurd rfl hne
      | cons u0 u' =>
        simp only [List.cons_append, List.cons.injEq] at heq
        obtain ⟨rfl, heq'⟩ := heq
        simp only [List.all_cons, Bool.and_eq_true] at hu
        refine ⟨hu.1, ?_⟩
        cases u' with
        | nil =>
          left
          simp only [List.nil_append] at heq'
          rw [heq',
            (consumeClass_eq_some addrBodyChar 39 (v ++ r) r).mpr ⟨v, rfl, hlen, hall⟩]
          exact (pyDollar_eq_true r).mpr hr
        | cons w u'' =>
          right
          exact (is_valid_crypto_address_default_iff s).mpr
            ⟨w :: u'', v, r, heq', by simp, hu.2, hlen, hall, hr⟩

/-- A successful `instantiate_contract` got its address from
`get_contract_address` on the confirmed response. -/
theorem instantiate_loop_success_addr (att : Nat → WorkflowAttempt B) :
    ∀ (rem attempt : Nat) (res : Option TxLog)
      (last : Option (InstCaught B)) (sleeps : Nat) (addr : String)
      (r : TxLog) (a s : Nat),
      instantiate_loop att rem attempt res last sleeps =
        ⟨.success addr r, a, s⟩ →
      get_contract_address r = .ok addr
  | 0, attempt, res, last, sleeps, addr, r, a, s, h => by
    simp [instantiate_loop] at h
  | rem + 1, attempt, res, last, sleeps, addr, r, a, s, h => by
    rcases hatt : att (attempt + 1) with e | q
    · simp only [instantiate_loop, hatt] at h
      exact instantiate_loop_success_addr att rem (attempt + 1) res
        (some (.broadcastExn e)) (sleeps + 1) addr r a s h
    · rcases hgca : get_contract_address q with e | addr'
      · cases e with
        | jsonDecodeError =>
          simp only [instantiate_loop, hatt, hgca] at h
          exact instantiate_loop_success_addr att rem (attempt + 1) (some q)
            (some .jsonDecodeError) (sleeps + 1) addr r a s h
        | assertionError => simp [instantiate_loop, hatt, hgca] at h
        | keyError => simp [instantiate_loop, hatt, hgca] at h
        | valueError => simp [instantiate_loop, hatt, hgca] at h
      · simp only [instantiate_loop, hatt, hgca, InstResult.mk.injEq,
          InstOutcome.success.injEq] at h
        obtain ⟨⟨rfl, rfl⟩, _⟩ := h
        exact hgca

/-- The response used for the C9 counterexample: its log's matching dict
carries a value that is a valid default-format address *with a trailing
newline*. -/
def cexTrailingNewlineResponse : TxLog :=
  ⟨"raw", some (.obj [("key", .str "contract_address"),
    ("value", .str ⟨'q' :: (List.replicate 39 'z' ++ ['\n'])⟩)])⟩

/-- Counterexample to C9: `get_contract_address` returns an address
consisting of a lowercase letter, 39 class characters and a trailing
newline — it passes the code's default check but is *not* a nonempty
lowercase prefix followed by exactly 39 lowercase-alphanumeric
characters. -/
theorem C9_get_contract_address_counterexample :
    get_contract_address cexTrailingNewlineResponse =
      .ok ⟨'q' :: (List.replicate 39 'z' ++ ['\n'])⟩ ∧
    ¬ ∃ u v, ('q' :: (List.replicate 39 'z' ++ ['\n'])) = u ++ v ∧
      u ≠ [] ∧ u.all lowerAlpha = true ∧ v.length = 39 ∧
      v.all addrBodyChar = true := by
  constructor
  · rfl
  · rintro ⟨u, v, heq, hne, hu, hlen, hv⟩
    have hul : u.length = 2 := by
      have h := congrArg List.length heq
      simp at h
      omega
    have hveq : v = ('q' :: (List.replicate 39 'z' ++ ['\n'])).drop 2 := by
      rw [heq, ← hul, List.drop_left]
    rw [hveq] at hv
    have hfalse : (('q' :: (List.replicate 39 'z' ++ ['\n'])).drop 2).all
        addrBodyChar = false := by decide
    rw [hfalse] at hv
    cases hv

/-- C9 (amended): every address string returned by `get_contract_address`
(and hence the address of every successful `instantiate_contract`)
satisfies the default address-format check — a nonempty lowercase-letter
prefix followed by exactly 39 lowercase-alphanumeric characters,
optionally followed by one trailing newline (Python's `$`); when the
extracted value fails that check, `get_contract_address` raises
(`AssertionError`) instead of returning it. -/
theorem C9_get_contract_address_amended {B : Type} :
    (∀ (response : TxLog) addr, get_contract_address response = .ok addr →
      is_valid_crypto_address_default addr.toList = true) ∧
    (∀ (response : TxLog) (j d v : Json), response.parsed = some j →
      find_item (markerMatch "contract_address") j = some d →
      dictGet "value" d = some v →
      is_valid_crypto_address_default (pyStr v).toList = false →
      get_contract_address response = .error .assertionError) ∧
    (∀ (att : Nat → WorkflowAttempt B) (n : Nat) (addr : String) (r : TxLog)
      (a s : Nat),
      instantiate_contract att n = ⟨.success addr r, a, s⟩ →
      is_valid_crypto_address_default addr.toList = true) := by
  have hok : ∀ (response : TxLog) addr, get_contract_address response = .ok addr →
      is_valid_crypto_address_default addr.toList = true := by
    intro response addr h
    rcases hp : response.parsed with _ | j
    · simp only [get_contract_address, hp] at h; cases h
    · rcases hf : find_item (markerMatch "contract_address") j with _ | d
      · simp only [get_contract_address, hp, hf] at h; cases h
      · rcases hd : dictGet "value" d with _ | v
        · simp only [get_contract_address, hp, hf, hd] at h; cases h
        · by_cases hvalid : is_valid_crypto_address_default (pyStr v).toList = true
          · simp only [get_contract_address, hp, hf, hd, hvalid, if_true,
              Except.ok.injEq] at h
            rw [← h]
            exact hvalid
          · simp only [get_contract_address, hp, hf, hd, hvalid, if_false] at h
            cases h
  refine ⟨hok, ?_, ?_⟩
  · intro response j d v hp hf hd hvalid
    simp only [get_contract_address, hp, hf, hd, hvalid, Bool.false_eq_true,
      if_false]
  · intro att n addr r a s h
    exact hok r addr
      (instantiate_loop_success_addr att n 0 none none 0 addr r a s h)

/-- Witness for the amended C9: a well-formed instantiate log yields a
valid address, and a malformed value makes `get_contract_address` raise. -/
theorem C9_get_contract_address_amended_witness :
    is_valid_crypto_address_default
      (String.toList ⟨'q' :: List.replicate 39 'z'⟩) = true ∧
    get_contract_address
        ⟨"raw", some (.obj [("key", .str "contract_address"),
          ("value", .str "xyz")])⟩ = .error .assertionError := by
  constructor
  · exact (C9_get_contract_address_amended (B := Unit)).1
      ⟨"raw", some (.obj [("key", .str "contract_address"),
        ("value", .str ⟨'q' :: List.replicate 39 'z'⟩)])⟩
      ⟨'q' :: List.replicate 39 'z'⟩ (by rfl)
  · exact (C9_get_contract_address_amended (B := Unit)).2.1
      ⟨"raw", some (.obj [("key", .str "contract_address"),
        ("value", .str "xyz")])⟩
      (.obj [("key", .str "contract_address"), ("value", .str "xyz")])
      (.obj [("key", .str "contract_address"), ("value", .str "xyz")])
      (.str "xyz") rfl rfl rfl (by decide)

/-! ## C3: retryable vs fatal conditions in `instantiate_contract` -/

/-- One instantiate-loop iteration whose broadcast raises: caught, sleep,
continue. -/
theorem instantiate_step_broadcast (att : Nat → WorkflowAttempt B)
    (rem attempt : Nat) (res : Option TxLog) (last : Option (InstCaught B))
    (sleeps : Nat) (e : B) (hatt : att (attempt + 1) = .broadcastExn e) :
    instantiate_loop att (rem + 1) attempt res last sleeps =
      instantiate_loop att rem (attempt + 1) res (some (.broadcastExn e))
        (sleeps + 1) := by
  simp only [instantiate_loop, hatt]

/-- One instantiate-loop iteration whose response fails to parse: caught,
sleep, continue with `res` updated. -/
theorem instantiate_step_parse_fail (att : Nat → WorkflowAttempt B)
    (rem attempt : Nat) (res : Option TxLog) (last : Option (InstCaught B))
    (sleeps : Nat) (q : TxLog) (hatt : att (attempt + 1) = .response q)
    (hq : q.parsed = none) :
    instantiate_loop att (rem + 1) attempt res last sleeps =
      instantiate_loop att rem (attempt + 1) (some q) (some .jsonDecodeError)
        (sleeps + 1) := by
  have hgca : get_contract_address q = .error .jsonDecodeError := by
    simp only [get_contract_address, hq]
  simp only [instantiate_loop, hatt, hgca]

/-- If every attempt in `(attempt, attempt + rem]` produces a response
whose raw log fails to parse, the instantiate loop retries through all
of them (one `msg_failed_retry_interval` sleep each) and then raises the
final `BroadcastException` whose cause is the last `JSONDecodeError` and
whose message carries the last response's raw log. -/
theorem instantiate_loop_all_parse_fail (att : Nat → WorkflowAttempt B)
    (r : Nat → TxLog) :
    ∀ (rem attempt : Nat) (res : Option TxLog)
      (last : Option (InstCaught B)) (sleeps : Nat),
      (∀ i, attempt < i → i ≤ attempt + rem →
        att i = .response (r i) ∧ (r i).parsed = none) →
      1 ≤ rem →
      instantiate_loop att rem attempt res last sleeps =
        ⟨.exhausted (some .jsonDecodeError) (r (attempt + rem)).raw_log,
          attempt + rem, sleeps + rem⟩ := by
  intro rem
  induction rem with
  | zero => intro attempt res last sleeps _ h1; omega
  | succ m ih =>
    intro attempt res last sleeps hfail _
    obtain ⟨hatt, hparse⟩ := hfail (attempt + 1) (by omega) (by omega)
    rw [instantiate_step_parse_fail att m attempt res last sleeps _ hatt hparse]
    cases m with
    | zero =>
      simp only [instantiate_loop, instErrorMsg]
    | succ m' =>
      rw [ih (attempt + 1) (some (r (attempt + 1))) (some .jsonDecodeError)
        (sleeps + 1) (by intro i h1 h2; exact hfail i (by omega) (by omega))
        (by omega)]
      have h1 : attempt + 1 + (m' + 1) = attempt + (m' + 1 + 1) := by omega
      have h2 : sleeps + 1 + (m' + 1) = sleeps + (m' + 1 + 1) := by omega
      rw [h1, h2]

/-- If the attempts before `k` are all caught failures (broadcast
rejections or parse failures) and attempt `k` yields a parsed log in
which the extractor finds nothing, the instantiate loop propagates the
uncaught `AssertionError` at attempt `k`, having slept once per caught
failure. -/
theorem instantiate_loop_fatal_no_match (att : Nat → WorkflowAttempt B)
    (k : Nat) (rk : TxLog) (j : Json)
    (hattk : att k = .response rk) (hparse : rk.parsed = some j)
    (hfind : find_item (markerMatch "contract_address") j = none) :
    ∀ (rem attempt : Nat) (res : Option TxLog)
      (last : Option (InstCaught B)) (sleeps : Nat),
      (∀ i, attempt < i → i < k →
        (∃ e, att i = .broadcastExn e) ∨
        (∃ q, att i = .response q ∧ q.parsed = none)) →
      attempt < k → k ≤ attempt + rem →
      instantiate_loop att rem attempt res last sleeps =
        ⟨.fatal .assertionError, k, sleeps + (k - attempt - 1)⟩ := by
  intro rem
  induction rem with
  | zero => intro attempt res last sleeps _ h1 h2; omega
  | succ m ih =>
    intro attempt res last sleeps hcaught h1 h2
    by_cases hk : attempt + 1 = k
    · subst hk
      have hgca : get_contract_address rk = .error .assertionError := by
        simp only [get_contract_address, hparse, hfind]
      simp only [instantiate_loop, hattk, hgca]
      simp
    · rcases hcaught (attempt + 1) (by omega) (by omega) with ⟨e, hatt⟩ | ⟨q, hatt, hq⟩
      · rw [instantiate_step_broadcast att m attempt res last sleeps e hatt]
        rw [ih (attempt + 1) res (some (.broadcastExn e)) (sleeps + 1)
          (by intro i hi1 hi2; exact hcaught i (by omega) hi2) (by omega) (by omega)]
        have h3 : sleeps + 1 + (k - (attempt + 1) - 1) = sleeps + (k - attempt - 1) := by
          omega
        rw [h3]
      · rw [instantiate_step_parse_fail att m attempt res last sleeps q hatt hq]
        rw [ih (attempt + 1) (some q) (some .jsonDecodeError) (sleeps + 1)
          (by intro i hi1 hi2; exact hcaught i (by omega) hi2) (by omega) (by omega)]
        have h3 : sleeps + 1 + (k - (attempt + 1) - 1) = sleeps + (k - attempt - 1) := by
          omega
        rw [h3]

/-- In `deploy_contract`, any exception from `get_code_id` on the first
confirmed response — a raw-log parse failure just as much as the
extractor finding nothing — is uncaught and fatal. -/
theorem deploy_loop_first_fatal (att : Nat → WorkflowAttempt B) (r1 : TxLog)
    (e : PyExn) (n : Nat)
    (hatt : att 1 = .response r1) (hg : get_code_id r1 = .error e)
    (hn : 1 ≤ n) :
    deploy_contract att n = ⟨.fatal e, 1, 0⟩ := by
  unfold deploy_contract
  cases n with
  | zero => omega
  | succ m => simp only [deploy_loop, hatt, hg]

/-- Counterexample to C3: a confirmed, well-parsed response whose log
contains no `contract_address` marker makes `instantiate_contract`
propagate the uncaught `AssertionError` at the first attempt, without
sleeping and without consuming the remaining budget (here
`n_total_msg_retries = 3`) — the extractor-finds-nothing condition is
*not* retried by the outer loop. -/
theorem C3_instantiate_counterexample :
    instantiate_contract (B := String)
        (fun _ => .response ⟨"raw", some exampleLog⟩) 3 =
      ⟨.fatal .assertionError, 1, 0⟩ ∧ 1 < 3 := by
  exact ⟨rfl, by norm_num⟩

/-- C3 (amended): in `instantiate_contract` a malformed-log *parse
failure* is a retryable condition — the outer loop sleeps the
failed-retry interval and re-attempts up to `n_total_msg_retries`,
raising the typed broadcast error carrying the last cause only when the
budget is exhausted — and this parse failure is fatal in
`deploy_contract`; the extractor-finds-nothing condition, however,
raises an uncaught `AssertionError` and is immediately fatal in
`instantiate_contract` just as in `deploy_contract`. -/
theorem C3_instantiate_error_handling (att attD : Nat → WorkflowAttempt B)
    (r : Nat → TxLog) (n k : Nat) (rk r1 : TxLog) (j : Json) (e : PyExn) :
    ((∀ i, 1 ≤ i → i ≤ n → att i = .response (r i) ∧ (r i).parsed = none) →
      1 ≤ n →
      instantiate_contract att n =
        ⟨.exhausted (some .jsonDecodeError) (r n).raw_log, n, n⟩) ∧
    ((∀ i, 1 ≤ i → i < k →
        (∃ e', att i = .broadcastExn e') ∨
        (∃ q, att i = .response q ∧ q.parsed = none)) →
      att k = .response rk → rk.parsed = some j →
      find_item (markerMatch "contract_address") j = none →
      1 ≤ k → k ≤ n →
      instantiate_contract att n = ⟨.fatal .assertionError, k, k - 1⟩) ∧
    (attD 1 = .response r1 → get_code_id r1 = .error e → 1 ≤ n →
      deploy_contract attD n = ⟨.fatal e, 1, 0⟩) := by
  refine ⟨?_, ?_, ?_⟩
  · intro hfail hn
    unfold instantiate_contract
    rw [instantiate_loop_all_parse_fail att r n 0 none none 0
      (by intro i h1 h2; exact hfail i (by omega) (by omega)) hn]
    simp
  · intro hcaught hattk hparse hfind hk1 hk2
    unfold instantiate_contract
    rw [instantiate_loop_fatal_no_match att k rk j hattk hparse hfind n 0
      none none 0 (by intro i h1 h2; exact hcaught i (by omega) h2)
      (by omega) (by omega)]
    simp
  · intro hatt hg hn
    exact deploy_loop_first_fatal attD r1 e n hatt hg hn

/-- Witness for the amended C3: two parse failures exhaust a budget of 2
with the typed error; a broadcast rejection then a no-match response hit
the fatal assertion at attempt 2 of budget 3; a parse failure is fatal at
once in `deploy_contract`. -/
theorem C3_instantiate_error_handling_witness :
    instantiate_contract (B := String)
        (fun _ => .response ⟨"bad log", none⟩) 2 =
      ⟨.exhausted (some .jsonDecodeError) "bad log", 2, 2⟩ ∧
    instantiate_contract (B := String)
        (fun i => if i = 1 then .broadcastExn "rejected"
          else .response ⟨"raw", some exampleLog⟩) 3 =
      ⟨.fatal .assertionError, 2, 1⟩ ∧
    deploy_contract (B := String)
        (fun _ => .response ⟨"bad log", none⟩) 2 =
      ⟨.fatal .jsonDecodeError, 1, 0⟩ := by
  refine ⟨?_, ?_, ?_⟩
  · exact (C3_instantiate_error_handling
      (fun _ => .response ⟨"bad log", none⟩) (fun _ => .response ⟨"bad log", none⟩)
      (fun _ => ⟨"bad log", none⟩) 2 0 ⟨"", none⟩ ⟨"", none⟩ .null
      .jsonDecodeError).1 (by intro i _ _; exact ⟨rfl, rfl⟩) (by norm_num)
  · exact (C3_instantiate_error_handling
      (fun i => if i = 1 then .broadcastExn "rejected"
        else .response ⟨"raw", some exampleLog⟩)
      (fun _ => .response ⟨"bad log", none⟩) (fun _ => ⟨"", none⟩) 3 2
      ⟨"raw", some exampleLog⟩ ⟨"", none⟩ exampleLog .jsonDecodeError).2.1
      (by intro i h1 h2; interval_cases i; exact .inl ⟨"rejected", rfl⟩)
      rfl rfl rfl (by norm_num) (by norm_num)
  · exact (C3_instantiate_error_handling
      (fun _ => .response ⟨"bad log", none⟩) (fun _ => .response ⟨"bad log", none⟩)
      (fun _ => ⟨"", none⟩) 2 0 ⟨"", none⟩ ⟨"bad log", none⟩ .null
      .jsonDecodeError).2.2 rfl rfl (by norm_num)

end Cosmpy
